import Mathlib

/-!
Verification of the `TaskMonitor` progress-monitoring component of
`apps/cortex-os/packages/agents/src/legacy-instructions/wizard.ts`.

The TypeScript class keeps, per monitored task id, a `TaskProgress` record and
an interval timer.  Each tick runs `updateTaskProgress` (a simulated status
update) followed by `displayProgress`; a `once` event listener stops the
monitor when the task completes.  We embed the mutable records as pure data,
the per-tick mutation as a pure function on them, and the monitor object as a
state with explicit maps (functions from task id), together with a step
relation describing all operations the surrounding program can perform.

Numbers: JavaScript floats are modelled as rationals (`ℚ`); millisecond
timestamps (`Date.now()`, `Date#getTime()`) as integers (`ℤ`); `Math.round`
as `round : ℚ → ℤ` (both round half towards positive infinity).  The two
`Math.random()` draws of a tick are passed in explicitly as the tick input.
-/

/-- Log levels `"info" | "warn" | "error"` of `TaskProgress.logs[].level`. -/
inductive Level where
  | info
  | warn
  | error
deriving DecidableEq, Repr

/-- Task status `"pending" | "running" | "completed" | "failed"`. -/
inductive Status where
  | pending
  | running
  | completed
  | failed
deriving DecidableEq, Repr

/-- One entry of `TaskProgress.logs`: `{timestamp: Date, level, message}`.
The `Date` is embedded as its millisecond value (`Date#getTime()`). -/
structure LogEntry where
  timestamp : ℤ
  level : Level
  message : String
deriving DecidableEq, Repr

/-- One entry of `TaskProgress.steps` (declared in the interface; the monitor
never writes to it, but we keep the field for fidelity). -/
structure StepEntry where
  name : String
  status : Status
  duration : Option ℚ
deriving DecidableEq, Repr

/-- The `TaskProgress` interface of wizard.ts.  `estimatedTimeRemaining` is
optional; it is produced by `Math.round`, hence an integer. -/
structure TaskProgress where
  taskId : String
  status : Status
  progress : ℚ
  currentStep : String
  estimatedTimeRemaining : Option ℤ
  steps : List StepEntry
  logs : List LogEntry
deriving DecidableEq, Repr

/-- The inputs a single tick of `updateTaskProgress` draws from the outside
world: `Date.now()` and the two `Math.random()` uses.  `incr` stands for the
value of `Math.random() * 5` (so `0 ≤ incr < 5` on real executions) and
`logTick` for the outcome of `Math.random() < 0.1`. -/
structure TickInput where
  now : ℤ
  incr : ℚ
  logTick : Bool

/-- `progress.logs[0]?.timestamp.getTime() || currentTime`: the start-of-task
reference time.  JavaScript `||` also replaces a zero timestamp (falsy) by
`currentTime`. -/
def startRef (logs : List LogEntry) (currentTime : ℤ) : ℤ :=
  match logs.head? with
  | none => currentTime
  | some l => if l.timestamp = 0 then currentTime else l.timestamp

/-- `updateTaskProgress` of wizard.ts as a pure function, paired with whether
this tick emitted the `task-<id>-completed` event.  The source mutates
`progress` in place and emits in the middle of the running branch; the event
listener (`stopMonitoring`) touches only the timer map, so delivering the
emission after the record is fully written is observationally the same. -/
def updateResult (p : TaskProgress) (inp : TickInput) : TaskProgress × Bool :=
  let currentTime := inp.now
  let elapsed : ℤ := currentTime - startRef p.logs currentTime
  -- `if (progress.status === "pending" && elapsed > 2000)`
  let p1 : TaskProgress :=
    if p.status = Status.pending ∧ 2000 < elapsed then
      { p with
        status := Status.running
        currentStep := "Processing task..."
        logs := p.logs ++ [{ timestamp := currentTime, level := Level.info,
                             message := "Task execution started" }] }
    else p
  -- `if (progress.status === "running")`
  if p1.status = Status.running then
    -- `progress.progress = Math.min(100, progress.progress + Math.random() * 5)`
    let prog : ℚ := min 100 (p1.progress + inp.incr)
    -- the step-label / status chain; the last arm also fires the emit
    let branch : String × Status × Bool :=
      if prog < 25 then ("Analyzing requirements...", Status.running, false)
      else if prog < 50 then ("Executing implementation...", Status.running, false)
      else if prog < 75 then ("Running validation...", Status.running, false)
      else if prog < 95 then ("Finalizing results...", Status.running, false)
      else ("Completing task...", Status.completed, true)
    -- `if (Math.random() < 0.1)` occasional log, using the updated currentStep
    let logs2 : List LogEntry :=
      if inp.logTick then
        p1.logs ++ [{ timestamp := currentTime, level := Level.info,
                      message := "Progress update: " ++ branch.1 }]
      else p1.logs
    -- `if (progress.progress > 10) { rate = progress / elapsed; ... }`
    let est : Option ℤ :=
      if 10 < prog then
        some (round ((100 - prog) / (prog / (elapsed : ℚ))))
      else p1.estimatedTimeRemaining
    ({ p1 with
        progress := prog
        currentStep := branch.1
        status := branch.2.1
        logs := logs2
        estimatedTimeRemaining := est },
      branch.2.2)
  else
    (p1, false)

/-- The record produced by one call of `updateTaskProgress`. -/
def updateTaskProgress (p : TaskProgress) (inp : TickInput) : TaskProgress :=
  (updateResult p inp).1

/-- Whether one call of `updateTaskProgress` emitted `task-<id>-completed`. -/
def updateEmitted (p : TaskProgress) (inp : TickInput) : Bool :=
  (updateResult p inp).2

/-- The fresh record `startMonitoring` installs for a task id. -/
def initProgress (taskId : String) : TaskProgress :=
  { taskId := taskId
    status := Status.pending
    progress := 0
    currentStep := "Initializing..."
    estimatedTimeRemaining := none
    steps := []
    logs := [] }

/-- Iterate `updateTaskProgress` over a list of tick inputs. -/
def runUpdates : TaskProgress → List TickInput → TaskProgress
  | p, [] => p
  | p, i :: is => runUpdates (updateTaskProgress p i) is

/-- The `TaskMonitor` object state.  `activeMonitors` records which task ids
hold a live interval timer (the map's values, `NodeJS.Timeout` handles, carry
no further observable state); `progressData` the record map; `listeners`
which ids still have their pending `once("task-<id>-completed", ...)` handler;
`pendingStops` the grace-delay `setTimeout(() => stopMonitoring(id), 3000)`
callbacks scheduled by `displayProgress` and not yet fired. -/
structure MonitorState where
  activeMonitors : String → Bool
  progressData : String → Option TaskProgress
  listeners : String → Bool
  pendingStops : List String

/-- `new TaskMonitor()`: no timers, no records, no listeners. -/
def initialState : MonitorState :=
  { activeMonitors := fun _ => false
    progressData := fun _ => none
    listeners := fun _ => false
    pendingStops := [] }

/-- `startMonitoring(taskId)`: a no-op when the id already has a timer,
otherwise installs a fresh pending record, an interval timer, and the
one-shot completion listener.  The source performs no validation of
`taskId` whatsoever. -/
def startMonitoring (s : MonitorState) (taskId : String) : MonitorState :=
  if s.activeMonitors taskId then s
  else
    { activeMonitors := fun id => if id = taskId then true else s.activeMonitors id
      progressData := fun id => if id = taskId then some (initProgress taskId)
                                else s.progressData id
      listeners := fun id => if id = taskId then true else s.listeners id
      pendingStops := s.pendingStops }

/-- `stopMonitoring(taskId)`: clears the interval timer when one exists.  It
deletes only the `activeMonitors` entry — the `TaskProgress` record and any
still-registered listener are left in place. -/
def stopMonitoring (s : MonitorState) (taskId : String) : MonitorState :=
  if s.activeMonitors taskId then
    { s with activeMonitors := fun id => if id = taskId then false
                                         else s.activeMonitors id }
  else s

/-- `this.emit("task-" + taskId + "-completed")` with the `once` handler
registered by `startMonitoring`: Node's `emit` runs the listener
synchronously, after removing it (`once`); the listener body is
`stopMonitoring(taskId)`. -/
def emitCompleted (s : MonitorState) (taskId : String) : MonitorState :=
  if s.listeners taskId then
    stopMonitoring
      { s with listeners := fun id => if id = taskId then false
                                      else s.listeners id }
      taskId
  else s

/-- `this.progressData.set(taskId, progress)`. -/
def setRecord (s : MonitorState) (taskId : String) (q : TaskProgress) :
    MonitorState :=
  { s with progressData := fun id => if id = taskId then some q
                                     else s.progressData id }

/-- The state effect of `displayProgress(taskId)`: everything it does is
terminal rendering except that, on a record in a terminal status, it
schedules `setTimeout(() => this.stopMonitoring(taskId), 3000)` — the
grace-delay stop.  With no record it returns early. -/
def displayProgress (s : MonitorState) (taskId : String) : MonitorState :=
  match s.progressData taskId with
  | none => s
  | some p =>
    if p.status = Status.completed ∨ p.status = Status.failed then
      { s with pendingStops := s.pendingStops ++ [taskId] }
    else s

/-- One firing of the grace-delay `setTimeout` scheduled by
`displayProgress`: it simply calls `stopMonitoring`. -/
def runPendingStop (s : MonitorState) (taskId : String) : MonitorState :=
  if taskId ∈ s.pendingStops then
    stopMonitoring { s with pendingStops := s.pendingStops.erase taskId } taskId
  else s

/-- One firing of the interval callback registered by `startMonitoring`:
`try { await updateTaskProgress(taskId); displayProgress(taskId) }
catch { console.error(...); stopMonitoring(taskId) }`.  A cleared interval
never fires, so the callback runs only while the id is in `activeMonitors`.
`sourceFails` models the only fallible step, the awaited
`DatabaseManager.getInstance()` status-source call, rejecting. -/
def tick (s : MonitorState) (taskId : String) (inp : TickInput)
    (sourceFails : Bool) : MonitorState :=
  if s.activeMonitors taskId then
    if sourceFails then
      stopMonitoring s taskId
    else
      match s.progressData taskId with
      | none => displayProgress s taskId
      | some p =>
        let r := updateResult p inp
        let s1 := setRecord s taskId r.1
        let s2 := if r.2 then emitCompleted s1 taskId else s1
        displayProgress s2 taskId
  else s

/-- `stopAllMonitoring()` over a list of the map's keys. -/
def stopAllMonitoring (s : MonitorState) : List String → MonitorState
  | [] => s
  | id :: ids => stopAllMonitoring (stopMonitoring s id) ids

/-- Everything the surrounding program can do to a `TaskMonitor` between two
observations: start or stop monitoring an id, have an interval tick fire
(succeeding or failing), or have a scheduled grace-delay stop fire. -/
inductive MonStep : MonitorState → MonitorState → Prop
  | start (s : MonitorState) (id : String) : MonStep s (startMonitoring s id)
  | tickFire (s : MonitorState) (id : String) (inp : TickInput) (f : Bool) :
      MonStep s (tick s id inp f)
  | stop (s : MonitorState) (id : String) : MonStep s (stopMonitoring s id)
  | grace (s : MonitorState) (id : String) : MonStep s (runPendingStop s id)

/-- States a `TaskMonitor` can actually be in. -/
inductive Reachable : MonitorState → Prop
  | init : Reachable initialState
  | step {s t : MonitorState} : Reachable s → MonStep s t → Reachable t

/-- Position of a status along `pending → running → {completed, failed}`. -/
def statusRank : Status → ℕ
  | Status.pending => 0
  | Status.running => 1
  | Status.completed => 2
  | Status.failed => 2

/-- The status stored in an optional record. -/
def statusOf (o : Option TaskProgress) : Option Status :=
  o.map TaskProgress.status

/-- Internal well-formedness of a `TaskMonitor`: every id with a live
interval timer still has its one-shot completion listener and a stored
record in a non-terminal status. -/
def MonInv (s : MonitorState) : Prop :=
  ∀ id, s.activeMonitors id = true →
    s.listeners id = true ∧
    ∃ p, s.progressData id = some p ∧
      (p.status = Status.pending ∨ p.status = Status.running)

/-- The first log entry a task ever receives in the source. -/
def log1 : LogEntry :=
  { timestamp := 1, level := Level.info, message := "Task execution started" }

/-- A mid-run snapshot: a running task at 92% with one log entry. -/
def pRun92 : TaskProgress :=
  { taskId := "t"
    status := Status.running
    progress := 92
    currentStep := "Finalizing results..."
    estimatedTimeRemaining := none
    steps := []
    logs := [log1] }

/-- A completed snapshot, for exercising terminal-state behaviour. -/
def pDone : TaskProgress :=
  { taskId := "t"
    status := Status.completed
    progress := 96
    currentStep := "Completing task..."
    estimatedTimeRemaining := some 208
    steps := []
    logs := [log1] }

/-- A tick input 5000 ms after `log1` whose increment pushes 92% to 96%. -/
def inp96 : TickInput := { now := 5001, incr := 4, logTick := false }

/-- An arbitrary small tick input. -/
def inpAny : TickInput := { now := 10, incr := 1, logTick := false }

/-- The monitor right after `startMonitoring("t")` on a fresh instance. -/
def sStart : MonitorState := startMonitoring initialState "t"

/-- A monitor holding the running snapshot `pRun92` for `"t"`, with its
timer and completion listener in place. -/
def sRun : MonitorState :=
  { activeMonitors := fun id => if id = "t" then true else false
    progressData := fun id => if id = "t" then some pRun92 else none
    listeners := fun id => if id = "t" then true else false
    pendingStops := [] }

/-! ### Basic facts about the per-tick record update -/

/-- On a pending record with an empty log, `updateTaskProgress` is the
identity: `elapsed` falls back to `currentTime - currentTime = 0`, so the
2000 ms threshold can never be crossed. -/
theorem update_pending_nologs (p : TaskProgress) (inp : TickInput)
    (hs : p.status = Status.pending) (hl : p.logs = []) :
    updateTaskProgress p inp = p := by
  simp [updateTaskProgress, updateResult, startRef, hs, hl]

/-- A record in a terminal status is untouched by the update, and no
completion event is emitted for it. -/
theorem update_terminal_fix (p : TaskProgress) (inp : TickInput)
    (hs : p.status = Status.completed ∨ p.status = Status.failed) :
    updateResult p inp = (p, false) := by
  rcases hs with hs | hs <;> simp [updateResult, hs]

/-- On a running record whose clamped incremented progress reaches 95, the
update completes the task and fires the completion event. -/
theorem update_running_completes (p : TaskProgress) (inp : TickInput)
    (hs : p.status = Status.running)
    (h95 : 95 ≤ min 100 (p.progress + inp.incr)) :
    (updateResult p inp).2 = true ∧
      (updateResult p inp).1.status = Status.completed := by
  have hpend : ¬(p.status = Status.pending ∧
      2000 < inp.now - startRef p.logs inp.now) := by
    rw [hs]; rintro ⟨h, -⟩; cases h
  simp only [updateResult]
  rw [if_neg hpend, if_pos hs]
  refine ⟨?_, ?_⟩ <;>
    · dsimp only
      split_ifs <;> first | rfl | (exfalso; linarith)

/-- On a running record whose clamped incremented progress stays below 95,
the update keeps the task running and fires no event. -/
theorem update_running_continues (p : TaskProgress) (inp : TickInput)
    (hs : p.status = Status.running)
    (h95 : min 100 (p.progress + inp.incr) < 95) :
    (updateResult p inp).2 = false ∧
      (updateResult p inp).1.status = Status.running := by
  have hpend : ¬(p.status = Status.pending ∧
      2000 < inp.now - startRef p.logs inp.now) := by
    rw [hs]; rintro ⟨h, -⟩; cases h
  simp only [updateResult]
  rw [if_neg hpend, if_pos hs]
  refine ⟨?_, ?_⟩ <;>
    · dsimp only
      split_ifs <;> first | rfl | (exfalso; linarith)

/-- Whenever a tick fires the completion event, the stored status it leaves
behind is `completed`. -/
theorem update_emit_completed (p : TaskProgress) (inp : TickInput)
    (he : (updateResult p inp).2 = true) :
    (updateResult p inp).1.status = Status.completed := by
  simp only [updateResult] at he ⊢
  split_ifs at he ⊢ <;> dsimp only at he ⊢ <;>
    first | exact Bool.noConfusion he | rfl

/-- A tick that fires no completion event leaves a pending-or-running record
pending or running: the per-tick update never produces `failed`, and
produces `completed` only together with the event. -/
theorem update_no_emit_nonterminal (p : TaskProgress) (inp : TickInput)
    (hp : p.status = Status.pending ∨ p.status = Status.running)
    (he : (updateResult p inp).2 = false) :
    (updateResult p inp).1.status = Status.pending ∨
      (updateResult p inp).1.status = Status.running := by
  simp only [updateResult] at he ⊢
  split_ifs at he ⊢ <;> dsimp only at * <;>
    first
      | exact Bool.noConfusion he
      | exact hp
      | simp

/-- Concrete evaluation of one tick on the running snapshot: 92% plus an
increment of 4 gives 96%, which is past the 95-threshold, so the record
completes (at 96%, with an ETA of `round ((100-96)/(96/5000)) = 208` ms) and
the completion event fires. -/
theorem update_pRun92_eval : updateResult pRun92 inp96 = (pDone, true) := by
  have hne := eq_false (show ¬ Status.running = Status.pending by decide)
  norm_num [updateResult, pRun92, inp96, pDone, log1, startRef, round_eq,
    min_def, hne]

/-! ### Claim C1 -/

/-- Claim C1: the spec says a `pending` task transitions to `running` (with
an `info` start log entry) once an elapsed-time threshold passes.  In the
code this can never happen: `elapsed` is measured from `logs[0]`, but a
freshly monitored task has an empty log, and the first entry would only be
appended by this very transition — so `elapsed` is always
`currentTime - currentTime = 0` while the task is pending.  Iterating the
per-tick update from the fresh record changes nothing at all: the task stays
`pending` forever and no log entry is ever appended. -/
theorem c1_pending_never_starts (id : String) (inps : List TickInput) :
    runUpdates (initProgress id) inps = initProgress id := by
  induction inps with
  | nil => rfl
  | cons i is ih =>
      simpa [runUpdates, update_pending_nologs (initProgress id) i rfl rfl]
        using ih

/-! ### Claim C2 -/

/-- Claim C2 counterexample: the claim says `completed` is set when and only
when `progressPercent` reaches 100, never at a lower value.  But a running
task at 92% that receives a 4-point increment is marked `completed` at 96%,
strictly below 100. -/
theorem c2_cex :
    (updateTaskProgress pRun92 inp96).status = Status.completed ∧
      (updateTaskProgress pRun92 inp96).progress = 96 ∧
      (updateTaskProgress pRun92 inp96).progress < 100 := by
  have h : updateTaskProgress pRun92 inp96 = pDone := by
    simp [updateTaskProgress, update_pRun92_eval]
  rw [h]
  refine ⟨rfl, rfl, ?_⟩
  norm_num [pDone]

/-- Claim C2 (amended): while running, the per-tick update marks the task
`completed` exactly when the clamped incremented progress reaches at least
95 — so completion always happens by 100%, but can occur strictly below
100%. -/
theorem c2_completed_iff_95 (p : TaskProgress) (inp : TickInput)
    (hs : p.status = Status.running) :
    (updateTaskProgress p inp).status = Status.completed ↔
      95 ≤ min 100 (p.progress + inp.incr) := by
  rcases le_or_lt 95 (min 100 (p.progress + inp.incr)) with h | h
  · exact iff_of_true (update_running_completes p inp hs h).2 h
  · refine iff_of_false ?_ (not_le.mpr h)
    have h2 := (update_running_continues p inp hs h).2
    intro hc
    exact absurd (h2.symm.trans hc) (by decide)

/-- Claim C2 witness: the amended statement applied to the concrete running
snapshot. -/
theorem c2_witness :
    (updateTaskProgress pRun92 inp96).status = Status.completed ↔
      95 ≤ min 100 (pRun92.progress + inp96.incr) :=
  c2_completed_iff_95 pRun92 inp96 rfl

/-! ### Claim C5 -/

/-- Claim C5 counterexample: the claim says `startMonitoring` with an empty
task id raises an error synchronously.  The code performs no validation at
all: called with `""` on a fresh monitor it simply begins monitoring the
empty id — installing a timer and a fresh pending record — exactly as for
any other id; no error path exists in `startMonitoring`. -/
theorem c5_cex :
    (startMonitoring initialState "").activeMonitors "" = true ∧
      (startMonitoring initialState "").progressData ""
        = some (initProgress "") := by
  constructor <;> simp [startMonitoring, initialState]

/-- Claim C5 (amended): `startMonitoring` performs no task-id validation and
never raises: for every id — the empty string included — that is not already
monitored, it succeeds and begins monitoring (fresh pending record, live
timer, completion listener). -/
theorem c5_no_validation (s : MonitorState) (id : String)
    (h : s.activeMonitors id = false) :
    (startMonitoring s id).activeMonitors id = true ∧
      (startMonitoring s id).progressData id = some (initProgress id) ∧
      (startMonitoring s id).listeners id = true := by
  refine ⟨?_, ?_, ?_⟩ <;> simp [startMonitoring, h]

/-- Claim C5 witness: the amended statement at the empty id on a fresh
monitor. -/
theorem c5_witness :
    (startMonitoring initialState "").activeMonitors "" = true ∧
      (startMonitoring initialState "").progressData ""
        = some (initProgress "") ∧
      (startMonitoring initialState "").listeners "" = true :=
  c5_no_validation initialState "" rfl

/-! ### Claim C8 -/

/-- Claim C8: `startMonitoring` checks `activeMonitors` first and returns
immediately for an already-monitored id, so a duplicate call before the task
finishes is a silent no-op leaving the whole monitor state — one timer entry
and one `TaskProgress` record for that id in the key-indexed maps —
untouched. -/
theorem c8_start_idempotent (s : MonitorState) (id : String) :
    startMonitoring (startMonitoring s id) id = startMonitoring s id := by
  by_cases h : s.activeMonitors id = true
  · simp [startMonitoring, h]
  · simp only [Bool.not_eq_true] at h
    simp [startMonitoring, h]

/-! ### Claim C6 -/

/-- Claim C6: per-tick status changes only move forward along
`pending → running → {completed, failed}` (measured by `statusRank`), and a
record whose status is terminal is left entirely unchanged by the update —
so no sequence of updates can ever leave a terminal state or produce
`completed → running`. -/
theorem c6_status_monotone (p : TaskProgress) (inp : TickInput) :
    statusRank p.status ≤ statusRank (updateTaskProgress p inp).status ∧
      ((p.status = Status.completed ∨ p.status = Status.failed) →
        updateTaskProgress p inp = p) := by
  constructor
  · rcases hst : p.status with _ | _ | _ | _
    · exact Nat.zero_le _
    · rcases le_or_lt 95 (min 100 (p.progress + inp.incr)) with h | h
      · have h2 := (update_running_completes p inp hst h).2
        simp [updateTaskProgress, statusRank, hst, h2]
      · have h2 := (update_running_continues p inp hst h).2
        simp [updateTaskProgress, statusRank, hst, h2]
    · have h2 := update_terminal_fix p inp (Or.inl hst)
      simp [updateTaskProgress, h2, hst]
    · have h2 := update_terminal_fix p inp (Or.inr hst)
      simp [updateTaskProgress, h2, hst]
  · intro h
    have h2 := update_terminal_fix p inp h
    simp [updateTaskProgress, h2]

/-- Claim C6 witness: the terminal-fixpoint part applied to the concrete
completed snapshot. -/
theorem c6_witness : updateTaskProgress pDone inpAny = pDone :=
  (c6_status_monotone pDone inpAny).2 (Or.inl rfl)

/-! ### Claim C7 -/

/-- Claim C7: one tick with a non-negative increment keeps `progress` inside
[0,100] and never decreases it — in the running branch the increment is
clamped by `Math.min(100, ...)`, and no other branch writes the field. -/
theorem c7_progress_bounds (p : TaskProgress) (inp : TickInput)
    (hi : 0 ≤ inp.incr) (h0 : 0 ≤ p.progress) (h1 : p.progress ≤ 100) :
    0 ≤ (updateTaskProgress p inp).progress ∧
      (updateTaskProgress p inp).progress ≤ 100 ∧
      p.progress ≤ (updateTaskProgress p inp).progress := by
  simp only [updateTaskProgress, updateResult]
  split_ifs <;> dsimp only <;>
    first
      | exact ⟨h0, h1, le_rfl⟩
      | exact ⟨le_min (by norm_num) (by linarith), min_le_left _ _,
               le_min h1 (by linarith)⟩

/-- Claim C7 witness: the bounds at the concrete running snapshot. -/
theorem c7_witness :
    0 ≤ (updateTaskProgress pRun92 inp96).progress ∧
      (updateTaskProgress pRun92 inp96).progress ≤ 100 ∧
      pRun92.progress ≤ (updateTaskProgress pRun92 inp96).progress :=
  c7_progress_bounds pRun92 inp96 (by decide) (by decide) (by decide)

/-! ### Monitor-level facts -/

/-- `stopMonitoring` touches only the timer map: the record map, the
listener map and the scheduled grace-delay stops survive it. -/
theorem stopMonitoring_fields (s : MonitorState) (id : String) :
    (stopMonitoring s id).progressData = s.progressData ∧
      (stopMonitoring s id).listeners = s.listeners ∧
      (stopMonitoring s id).pendingStops = s.pendingStops := by
  unfold stopMonitoring; split <;> exact ⟨rfl, rfl, rfl⟩

/-- After `stopMonitoring` the id has no timer (whether or not it had one). -/
theorem stopMonitoring_active_self (s : MonitorState) (id : String) :
    (stopMonitoring s id).activeMonitors id = false := by
  unfold stopMonitoring
  split
  · simp
  · next h => simpa using h

/-- `stopMonitoring` leaves other ids' timers alone. -/
theorem stopMonitoring_active_other (s : MonitorState) (id j : String)
    (h : j ≠ id) :
    (stopMonitoring s id).activeMonitors j = s.activeMonitors j := by
  unfold stopMonitoring
  split
  · simp [h]
  · rfl

/-- `displayProgress` only renders and (on a terminal record) schedules the
grace-delay stop; the three maps are untouched. -/
theorem displayProgress_fields (s : MonitorState) (id : String) :
    (displayProgress s id).activeMonitors = s.activeMonitors ∧
      (displayProgress s id).listeners = s.listeners ∧
      (displayProgress s id).progressData = s.progressData := by
  unfold displayProgress
  rcases h : s.progressData id with _ | p <;> simp only [h]
  · simp
  · split <;> simp

/-- On a terminal record, `displayProgress` schedules the grace-delay stop. -/
theorem displayProgress_pendingStops_terminal (s : MonitorState) (id : String)
    (p : TaskProgress) (h : s.progressData id = some p)
    (ht : p.status = Status.completed ∨ p.status = Status.failed) :
    (displayProgress s id).pendingStops = s.pendingStops ++ [id] := by
  unfold displayProgress
  simp only [h]
  rw [if_pos ht]

/-- The completion emission never touches the record map. -/
theorem emitCompleted_progressData (s : MonitorState) (id : String) :
    (emitCompleted s id).progressData = s.progressData := by
  unfold emitCompleted
  split
  · exact (stopMonitoring_fields _ _).1
  · rfl

/-- The grace-delay stop never touches the record map either. -/
theorem runPendingStop_progressData (s : MonitorState) (id : String) :
    (runPendingStop s id).progressData = s.progressData := by
  unfold runPendingStop
  split
  · exact (stopMonitoring_fields _ _).1
  · rfl

/-- Emitting to a registered `once` listener runs `stopMonitoring`
synchronously: immediately after the emission the id has no timer. -/
theorem emitCompleted_active_self (s : MonitorState) (id : String)
    (h : s.listeners id = true) :
    (emitCompleted s id).activeMonitors id = false := by
  unfold emitCompleted
  rw [if_pos h]
  exact stopMonitoring_active_self _ _

/-- After the emission the one-shot listener is consumed (or was absent). -/
theorem emitCompleted_listeners_self (s : MonitorState) (id : String) :
    (emitCompleted s id).listeners id = false := by
  unfold emitCompleted
  split
  · rw [(stopMonitoring_fields _ _).2.1]; simp
  · next h => simpa using h

/-- The emission for one id leaves other ids' timers alone. -/
theorem emitCompleted_active_other (s : MonitorState) (id j : String)
    (h : j ≠ id) :
    (emitCompleted s id).activeMonitors j = s.activeMonitors j := by
  unfold emitCompleted
  split
  · exact stopMonitoring_active_other _ _ _ h
  · rfl

/-- The emission for one id leaves other ids' listeners alone. -/
theorem emitCompleted_listeners_other (s : MonitorState) (id j : String)
    (h : j ≠ id) :
    (emitCompleted s id).listeners j = s.listeners j := by
  unfold emitCompleted
  split
  · rw [(stopMonitoring_fields _ _).2.1]; simp [h]
  · rfl

/-- The completion emission schedules nothing: the grace-delay stops are
untouched by it. -/
theorem emitCompleted_pendingStops (s : MonitorState) (id : String) :
    (emitCompleted s id).pendingStops = s.pendingStops := by
  unfold emitCompleted
  split
  · exact (stopMonitoring_fields _ _).2.2
  · rfl

/-- A cleared interval never fires: a tick for an unmonitored id is a
no-op. -/
theorem tick_inactive (s : MonitorState) (id : String) (inp : TickInput)
    (f : Bool) (h : s.activeMonitors id = false) : tick s id inp f = s := by
  simp [tick, h]

/-- The `catch` path of the interval callback: a failing status source makes
the tick call `stopMonitoring` (after logging the error). -/
theorem tick_fail (s : MonitorState) (id : String) (inp : TickInput)
    (h : s.activeMonitors id = true) :
    tick s id inp true = stopMonitoring s id := by
  simp [tick, h]

/-- A successful tick on a monitored id with a stored record: run the record
update, deliver the completion emission when it fired, then render. -/
theorem tick_normal (s : MonitorState) (id : String) (inp : TickInput)
    (p : TaskProgress) (ha : s.activeMonitors id = true)
    (hr : s.progressData id = some p) :
    tick s id inp false =
      displayProgress
        (if (updateResult p inp).2 then
          emitCompleted (setRecord s id (updateResult p inp).1) id
        else setRecord s id (updateResult p inp).1) id := by
  simp [tick, ha, hr]

/-! ### Claim C3 -/

/-- Claim C3 counterexample: the claim says a tick whose status source fails
leaves the task monitored (continuing on the next tick) and that only a
fixed number of consecutive failures marks the task `failed` and stops it.
In the code the `catch` handler calls `stopMonitoring` at once: after a
single failing tick on a freshly monitored task, the timer is gone, the
record is untouched (still `pending`, never `failed`), and a further tick is
a no-op — there is no next tick and no failure counter at all. -/
theorem c3_cex :
    (tick sStart "t" inpAny true).activeMonitors "t" = false ∧
      (tick sStart "t" inpAny true).progressData "t"
        = some (initProgress "t") ∧
      (initProgress "t").status = Status.pending ∧
      tick (tick sStart "t" inpAny true) "t" inpAny false
        = tick sStart "t" inpAny true := by
  have h : (tick sStart "t" inpAny true).activeMonitors "t" = false := by
    decide
  exact ⟨h, by decide, rfl, tick_inactive _ _ _ _ h⟩

/-- Claim C3 (amended): if the status source fails during a tick on a
monitored id, the monitor logs the error and immediately stops monitoring
that id — on the first failure, with no failure counter — while leaving the
whole record map (hence the task's status, which is never set to `failed`)
unchanged. -/
theorem c3_first_failure_stops (s : MonitorState) (id : String)
    (inp : TickInput) (h : s.activeMonitors id = true) :
    tick s id inp true = stopMonitoring s id ∧
      (stopMonitoring s id).progressData = s.progressData ∧
      (stopMonitoring s id).activeMonitors id = false :=
  ⟨tick_fail s id inp h, (stopMonitoring_fields s id).1,
    stopMonitoring_active_self s id⟩

/-- Claim C3 witness: the amended statement on a freshly monitored id. -/
theorem c3_witness :
    tick sStart "t" inpAny true = stopMonitoring sStart "t" ∧
      (stopMonitoring sStart "t").progressData = sStart.progressData ∧
      (stopMonitoring sStart "t").activeMonitors "t" = false :=
  c3_first_failure_stops sStart "t" inpAny (by decide)

/-! ### Claim C4 -/

/-- Claim C4 counterexample: the claim says the monitor stops monitoring a
finished task only after the grace delay — not instantly — and discards the
`TaskProgress` record when monitoring stops.  In the code the `once`
listener runs `stopMonitoring` synchronously inside the completing tick
itself, so the timer is already gone before any grace-delay timeout can
fire; and `stopMonitoring` never deletes from `progressData`, so the record
survives even after the scheduled grace-delay stop runs. -/
theorem c4_cex :
    (tick sRun "t" inp96 false).activeMonitors "t" = false ∧
      (tick sRun "t" inp96 false).progressData "t" = some pDone ∧
      (runPendingStop (tick sRun "t" inp96 false) "t").progressData "t"
        = some pDone := by
  have ht : tick sRun "t" inp96 false =
      displayProgress (emitCompleted (setRecord sRun "t" pDone) "t") "t" := by
    rw [tick_normal sRun "t" inp96 pRun92 (by decide) (by decide),
      update_pRun92_eval]
    simp
  have hrec : (displayProgress (emitCompleted (setRecord sRun "t" pDone) "t")
      "t").progressData "t" = some pDone := by
    rw [(displayProgress_fields _ _).2.2, emitCompleted_progressData]
    simp [setRecord]
  refine ⟨?_, ?_, ?_⟩
  · rw [ht, (displayProgress_fields _ _).1]
    exact emitCompleted_active_self _ _ (by decide)
  · rw [ht]; exact hrec
  · rw [ht, runPendingStop_progressData]; exact hrec

/-- Claim C4 (amended): when a successful tick pushes a running task past the
completion threshold, the monitor emits the one-shot finished notification
for that id exactly once — the `once` listener is consumed — and that
listener runs `stopMonitoring` synchronously within the same tick, so
monitoring stops instantly rather than after the grace delay; the renderer
still schedules the grace-delay stop, but the task's `TaskProgress` record
is retained (never discarded), even once that delayed stop fires. -/
theorem c4_completion_stops_instantly (s : MonitorState) (id : String)
    (inp : TickInput) (p : TaskProgress)
    (hact : s.activeMonitors id = true) (hlis : s.listeners id = true)
    (hrec : s.progressData id = some p) (hrun : p.status = Status.running)
    (h95 : 95 ≤ min 100 (p.progress + inp.incr)) :
    (tick s id inp false).activeMonitors id = false ∧
      (tick s id inp false).listeners id = false ∧
      (tick s id inp false).progressData id
        = some (updateTaskProgress p inp) ∧
      (updateTaskProgress p inp).status = Status.completed ∧
      (tick s id inp false).pendingStops = s.pendingStops ++ [id] ∧
      (runPendingStop (tick s id inp false) id).progressData
        = (tick s id inp false).progressData := by
  obtain ⟨he, hc⟩ := update_running_completes p inp hrun h95
  rw [tick_normal s id inp p hact hrec, if_pos he]
  have hrec2 : (emitCompleted (setRecord s id (updateResult p inp).1)
      id).progressData id = some (updateResult p inp).1 := by
    rw [emitCompleted_progressData]
    simp [setRecord]
  refine ⟨?_, ?_, ?_, hc, ?_, runPendingStop_progressData _ _⟩
  · rw [(displayProgress_fields _ _).1]
    exact emitCompleted_active_self _ _ hlis
  · rw [(displayProgress_fields _ _).2.1]
    exact emitCompleted_listeners_self _ _
  · rw [(displayProgress_fields _ _).2.2]
    exact hrec2
  · rw [displayProgress_pendingStops_terminal _ _ _ hrec2 (Or.inl hc),
      emitCompleted_pendingStops]
    rfl

/-- Claim C4 witness: the amended statement on the concrete running
snapshot. -/
theorem c4_witness :
    (tick sRun "t" inp96 false).activeMonitors "t" = false ∧
      (tick sRun "t" inp96 false).listeners "t" = false ∧
      (tick sRun "t" inp96 false).progressData "t"
        = some (updateTaskProgress pRun92 inp96) ∧
      (updateTaskProgress pRun92 inp96).status = Status.completed ∧
      (tick sRun "t" inp96 false).pendingStops = sRun.pendingStops ++ ["t"] ∧
      (runPendingStop (tick sRun "t" inp96 false) "t").progressData
        = (tick sRun "t" inp96 false).progressData :=
  c4_completion_stops_instantly sRun "t" inp96 pRun92 (by decide) (by decide)
    (by decide) (by decide) (by norm_num [pRun92, inp96, min_def])

/-! ### Claim C9 -/

/-- Claim C9 counterexample: the claim says `estimatedTimeRemaining` is
unset whenever the status is not `running`.  But the very tick that
completes a task (progress past 95, hence past the floor of 10) recomputes
the estimate and the field is never cleared afterwards, so the stored record
has `status = completed` together with a present estimate. -/
theorem c9_cex :
    (updateTaskProgress pRun92 inp96).status = Status.completed ∧
      (updateTaskProgress pRun92 inp96).estimatedTimeRemaining ≠ none := by
  have h : updateTaskProgress pRun92 inp96 = pDone := by
    simp [updateTaskProgress, update_pRun92_eval]
  rw [h]
  exact ⟨rfl, by simp [pDone]⟩

/-- Claim C9 (amended): on a running task, the tick recomputes
`estimatedTimeRemaining` as `Math.round` of
`(100 - progress) / (progress / elapsed)` — with the post-increment clamped
progress, and elapsed time measured from the first log entry's timestamp —
exactly when that progress exceeds the floor of 10; at or below the floor
the field keeps its previous value (it is never cleared, so it can stay set
after the task leaves `running`). -/
theorem c9_eta_formula (p : TaskProgress) (inp : TickInput)
    (hrun : p.status = Status.running) :
    ((10 : ℚ) < min 100 (p.progress + inp.incr) →
      (updateTaskProgress p inp).estimatedTimeRemaining =
        some (round ((100 - min 100 (p.progress + inp.incr)) /
          (min 100 (p.progress + inp.incr) /
            ((inp.now - startRef p.logs inp.now : ℤ) : ℚ))))) ∧
      (min 100 (p.progress + inp.incr) ≤ 10 →
        (updateTaskProgress p inp).estimatedTimeRemaining =
          p.estimatedTimeRemaining) := by
  have hpend : ¬(p.status = Status.pending ∧
      2000 < inp.now - startRef p.logs inp.now) := by
    rw [hrun]; rintro ⟨h, -⟩; cases h
  simp only [updateTaskProgress, updateResult]
  rw [if_neg hpend, if_pos hrun]
  constructor <;> intro h10 <;> dsimp only
  · rw [if_pos h10]
  · rw [if_neg (not_lt.mpr h10)]

/-- Claim C9 witness: the formula evaluated on the concrete running
snapshot — elapsed 5000 ms, progress 96, estimate
`round ((100-96)/(96/5000)) = 208`. -/
theorem c9_witness :
    (updateTaskProgress pRun92 inp96).estimatedTimeRemaining = some 208 := by
  have h := (c9_eta_formula pRun92 inp96 rfl).1
    (by norm_num [pRun92, inp96, min_def])
  rw [h]
  norm_num [pRun92, inp96, startRef, log1, min_def, round_eq]

/-! ### The monitor invariant and reachability -/

/-- A fresh `TaskMonitor` satisfies the invariant vacuously. -/
theorem monInv_initial : MonInv initialState := by
  intro id h
  simp [initialState] at h

/-- `startMonitoring` preserves the invariant: it installs timer, listener
and fresh pending record together. -/
theorem monInv_start (s : MonitorState) (id : String) (hs : MonInv s) :
    MonInv (startMonitoring s id) := by
  by_cases h : s.activeMonitors id = true
  · unfold startMonitoring
    rw [if_pos h]
    exact hs
  · unfold startMonitoring
    rw [if_neg (by simp [h])]
    intro j hj
    dsimp only at hj ⊢
    by_cases hji : j = id
    · refine ⟨by simp [hji], initProgress id, by simp [hji], Or.inl rfl⟩
    · rw [if_neg hji] at hj
      obtain ⟨hl, q, hq, hqs⟩ := hs j hj
      exact ⟨by simpa [hji] using hl, q, by simpa [hji] using hq, hqs⟩

/-- `stopMonitoring` preserves the invariant: it only removes a timer. -/
theorem monInv_stop (s : MonitorState) (id : String) (hs : MonInv s) :
    MonInv (stopMonitoring s id) := by
  intro j hj
  by_cases hji : j = id
  · rw [hji, stopMonitoring_active_self] at hj
    cases hj
  · rw [stopMonitoring_active_other _ _ _ hji] at hj
    obtain ⟨hl, q, hq, hqs⟩ := hs j hj
    rw [(stopMonitoring_fields s id).2.1, (stopMonitoring_fields s id).1]
    exact ⟨hl, q, hq, hqs⟩

/-- The grace-delay stop preserves the invariant. -/
theorem monInv_grace (s : MonitorState) (id : String) (hs : MonInv s) :
    MonInv (runPendingStop s id) := by
  unfold runPendingStop
  split
  · exact monInv_stop _ id (fun j hj => hs j hj)
  · exact hs

/-- Rendering preserves the invariant: it only touches `pendingStops`. -/
theorem monInv_display (s : MonitorState) (id : String) (hs : MonInv s) :
    MonInv (displayProgress s id) := by
  intro j hj
  rw [(displayProgress_fields s id).1] at hj
  rw [(displayProgress_fields s id).2.1, (displayProgress_fields s id).2.2]
  exact hs j hj

/-- A tick preserves the invariant.  The interesting case is a successful
tick on a monitored id: if the update completes the task, the synchronous
emission consumes the listener and clears the timer, so the id drops out of
the invariant's scope; otherwise the new record is still pending or
running. -/
theorem monInv_tick (s : MonitorState) (id : String) (inp : TickInput)
    (f : Bool) (hs : MonInv s) : MonInv (tick s id inp f) := by
  by_cases hact : s.activeMonitors id = true
  · cases f
    · rcases hrec : s.progressData id with _ | p
      · have ht : tick s id inp false = displayProgress s id := by
          simp [tick, hact, hrec]
        rw [ht]
        exact monInv_display s id hs
      · obtain ⟨hl0, q0, hq0, hqs0⟩ := hs id hact
        rw [hrec] at hq0
        injection hq0 with hq0
        subst hq0
        rw [tick_normal s id inp p hact hrec]
        by_cases he : (updateResult p inp).2 = true
        · rw [if_pos he]
          apply monInv_display
          intro j hj
          by_cases hji : j = id
          · rw [hji, emitCompleted_active_self
              (setRecord s id (updateResult p inp).1) id hl0] at hj
            cases hj
          · rw [emitCompleted_active_other _ _ _ hji] at hj
            obtain ⟨hl, q, hq, hqs⟩ := hs j hj
            rw [emitCompleted_listeners_other _ _ _ hji,
              emitCompleted_progressData]
            refine ⟨hl, q, ?_, hqs⟩
            simpa [setRecord, hji] using hq
        · rw [if_neg he]
          apply monInv_display
          intro j hj
          by_cases hji : j = id
          · subst hji
            refine ⟨hl0, (updateResult p inp).1, by simp [setRecord], ?_⟩
            exact update_no_emit_nonterminal p inp hqs0 (by simpa using he)
          · obtain ⟨hl, q, hq, hqs⟩ := hs j hj
            refine ⟨hl, q, ?_, hqs⟩
            simpa [setRecord, hji] using hq
    · rw [tick_fail s id inp hact]
      exact monInv_stop s id hs
  · rw [tick_inactive s id inp f (by simpa using hact)]
    exact hs

/-- Every state a `TaskMonitor` can reach satisfies the invariant: a live
timer always comes with its one-shot listener and a stored record in a
non-terminal status. -/
theorem monInv_reachable (s : MonitorState) (h : Reachable s) : MonInv s := by
  induction h with
  | init => exact monInv_initial
  | step hr hstep ih =>
      cases hstep with
      | start id => exact monInv_start _ id ih
      | tickFire id inp f => exact monInv_tick _ id inp f ih
      | stop id => exact monInv_stop _ id ih
      | grace id => exact monInv_grace _ id ih

/-! ### Claim C10 -/

/-- Claim C10: in every reachable monitor state, an id with a live interval
timer holds a record whose status is still `pending` or `running` — the
per-tick update is never executed on a task already in a terminal status —
and whenever a successful tick leaves the stored status `completed`, that
same tick has already cancelled the interval synchronously (the emission ran
the `once` listener's `stopMonitoring` inside the tick), so every later tick
for that id is a no-op: the terminal snapshot is rendered at most once, by
the completing tick itself. -/
theorem c10_terminal_tick_cancellation (s : MonitorState) (id : String)
    (hr : Reachable s) (hact : s.activeMonitors id = true) :
    (∃ p, s.progressData id = some p ∧
        (p.status = Status.pending ∨ p.status = Status.running)) ∧
      (∀ inp, statusOf ((tick s id inp false).progressData id)
          = some Status.completed →
        (tick s id inp false).activeMonitors id = false ∧
          ∀ inp2 f, tick (tick s id inp false) id inp2 f
            = tick s id inp false) := by
  obtain ⟨hl, p, hrec, hp⟩ := monInv_reachable s hr id hact
  refine ⟨⟨p, hrec, hp⟩, ?_⟩
  intro inp hcomp
  rw [tick_normal s id inp p hact hrec] at hcomp ⊢
  by_cases he : (updateResult p inp).2 = true
  · rw [if_pos he] at hcomp ⊢
    have hactF : (displayProgress (emitCompleted
        (setRecord s id (updateResult p inp).1) id) id).activeMonitors id
        = false := by
      rw [(displayProgress_fields _ _).1]
      exact emitCompleted_active_self
        (setRecord s id (updateResult p inp).1) id hl
    exact ⟨hactF, fun inp2 f => tick_inactive _ _ _ _ hactF⟩
  · rw [if_neg he] at hcomp
    rw [(displayProgress_fields _ _).2.2] at hcomp
    have hrw : statusOf ((setRecord s id (updateResult p inp).1).progressData
        id) = some (updateResult p inp).1.status := by
      simp [setRecord, statusOf]
    rw [hrw] at hcomp
    rcases update_no_emit_nonterminal p inp hp (by simpa using he) with
      hne | hne <;>
      rw [hne] at hcomp <;>
      exact absurd (Option.some.inj hcomp) (by simp)

/-- Claim C10 witness: the non-terminal part of the statement for a freshly
started task. -/
theorem c10_witness :
    ∃ p, sStart.progressData "t" = some p ∧
      (p.status = Status.pending ∨ p.status = Status.running) :=
  (c10_terminal_tick_cancellation sStart "t"
      (Reachable.step Reachable.init (MonStep.start initialState "t"))
      (by decide)).1
